import Mathlib

/-!
# Verification of the `leptoaster-stable` toaster core

Shallow embedding of `src/toaster/context.rs` (`ToasterContext` and its
mutation methods) and `src/toaster.rs` (`provide_toaster` / `expect_toaster`).

The Rust crate also contains a `toast` module (`ToastId`, `ToastLevel`,
`ToastData`, `ToastBuilder`) that is not part of the provided sources;
those types are modelled from the specification's data-model section.

The reactive plumbing (`RwSignal`, `Rc<RefCell<..>>`) is flattened into a
plain record `ToasterState`; each Rust method becomes a pure state
transformer.  Machine integers (`u32 visible`, `u64 total`) are modelled
as `Nat`: their Rust counterparts trap rather than wrap on overflow in
debug builds, and the claims under study concern the checked behaviour.
-/

/-- Modelled from the spec: `ToastId` lives in the missing `toast` module.
"**ToastId**: opaque monotonically increasing identifier" (a `u64` id). -/
abbrev ToastId := Nat

/-- Modelled from the spec: `ToastLevel` lives in the missing `toast` module.
"level (Info|Success|Warn|Error)". -/
inductive ToastLevel where
  | Info
  | Success
  | Warn
  | Error
deriving DecidableEq, Repr

/-- Modelled from the spec: `ToastData` lives in the missing `toast` module.
"**ToastData**: { id, message text, level (Info|Success|Warn|Error), optional
expiry duration, a boolean "clear" signal used to trigger dismissal
animation }."  The per-toast reactive `clear_signal` is flattened to a
`Bool` field. -/
structure ToastData where
  id : ToastId
  message : String
  level : ToastLevel
  expiry : Option Nat
  clear_signal : Bool
deriving DecidableEq, Repr

/-- Modelled from the spec: `ToastBuilder` lives in the missing `toast`
module.  "**ToastBuilder**: fluent constructor producing a `ToastData` from
accumulated optional settings."  It accumulates the message, level and
optional expiry used by `build`. -/
structure ToastBuilder where
  message : String
  level : ToastLevel
  expiry : Option Nat
deriving DecidableEq, Repr

namespace ToastBuilder

/-- Modelled from the spec: `ToastBuilder::new(message)` starts a fresh
builder for the given message (remaining settings at their defaults). -/
def new (message : String) : ToastBuilder :=
  { message := message, level := ToastLevel.Info, expiry := none }

/-- Modelled from the spec: fluent setter for the message. -/
def with_message (b : ToastBuilder) (message : String) : ToastBuilder :=
  { b with message := message }

/-- Modelled from the spec: fluent setter for the level. -/
def with_level (b : ToastBuilder) (level : ToastLevel) : ToastBuilder :=
  { b with level := level }

/-- Modelled from the spec: fluent setter for the expiry. -/
def with_expiry (b : ToastBuilder) (expiry : Option Nat) : ToastBuilder :=
  { b with expiry := expiry }

/-- Modelled from the spec: `ToastBuilder::build(id)` produces a `ToastData`
with the supplied id and the accumulated settings; the clear signal of a
fresh toast starts out unset. -/
def build (b : ToastBuilder) (id : ToastId) : ToastData :=
  { id := id
    message := b.message
    level := b.level
    expiry := b.expiry
    clear_signal := false }

end ToastBuilder

/-- Rust `struct ToasterStats { visible: u32, total: u64 }`
(src/toaster/context.rs lines 32-36). -/
structure ToasterStats where
  visible : Nat
  total : Nat
deriving DecidableEq, Repr

/-- Rust `ToasterStats::default()`: both counters zero. -/
def ToasterStats.default : ToasterStats :=
  { visible := 0, total := 0 }

/-- Rust `struct ToasterContext { stats, queue, defaults }`
(src/toaster/context.rs lines 25-30), with the reactive wrappers
flattened away. -/
structure ToasterState where
  stats : ToasterStats
  queue : List ToastData
  defaults : Option ToastBuilder
deriving DecidableEq, Repr

namespace ToasterState

/-- Rust `impl Default for ToasterContext` (src/toaster/context.rs lines 198-206):
empty queue, zeroed stats, no defaults. -/
def default : ToasterState :=
  { stats := ToasterStats.default, queue := [], defaults := none }

/-- Rust `ToasterContext::new_with_defaults` (src/toaster/context.rs lines 39-45). -/
def new_with_defaults (defaults : ToastBuilder) : ToasterState :=
  { stats := ToasterStats.default, queue := [], defaults := some defaults }

/-- Rust `ToasterContext::toast` (src/toaster/context.rs lines 60-69):
build a toast with id `total + 1`, push it onto the queue, then increment
`visible` and `total`. -/
def toast (s : ToasterState) (builder : ToastBuilder) : ToasterState :=
  let t := builder.build (s.stats.total + 1)
  { s with
    queue := s.queue ++ [t]
    stats := { visible := s.stats.visible + 1, total := s.stats.total + 1 } }

/-- The builder that `info`/`success`/`warn`/`error` pass to `toast`
(src/toaster/context.rs lines 82-154): clone the defaults and set the
message, or start a fresh builder, then set the preset level. -/
def conveniences (s : ToasterState) (message : String) (level : ToastLevel) :
    ToastBuilder :=
  ((s.defaults.map (fun d => d.with_message message)).getD
    (ToastBuilder.new message)).with_level level

/-- Rust `ToasterContext::info` (src/toaster/context.rs lines 82-91). -/
def info (s : ToasterState) (message : String) : ToasterState :=
  s.toast (s.conveniences message ToastLevel.Info)

/-- Rust `ToasterContext::success` (src/toaster/context.rs lines 104-112). -/
def success (s : ToasterState) (message : String) : ToasterState :=
  s.toast (s.conveniences message ToastLevel.Success)

/-- Rust `ToasterContext::warn` (src/toaster/context.rs lines 125-133). -/
def warn (s : ToasterState) (message : String) : ToasterState :=
  s.toast (s.conveniences message ToastLevel.Warn)

/-- Rust `ToasterContext::error` (src/toaster/context.rs lines 146-154). -/
def error (s : ToasterState) (message : String) : ToasterState :=
  s.toast (s.conveniences message ToastLevel.Error)

/-- Rust `ToasterContext::clear` (src/toaster/context.rs lines 172-176):
set every queued toast's clear signal; nothing else changes. -/
def clear (s : ToasterState) : ToasterState :=
  { s with queue := s.queue.map (fun t => { t with clear_signal := true }) }

/-- Rust `ToasterContext::remove` (src/toaster/context.rs lines 179-195):
find the index of the first toast whose id matches, and if one exists,
remove it from the queue and decrement `visible`. -/
def remove (s : ToasterState) (toast_id : ToastId) : ToasterState :=
  match s.queue.findIdx? (fun t => t.id == toast_id) with
  | some index =>
      { s with
        queue := s.queue.eraseIdx index
        stats := { s.stats with visible := s.stats.visible - 1 } }
  | none => s

end ToasterState

/-- One call on a `ToasterContext`: used to describe the states reachable
through the public mutation methods. -/
inductive ToasterOp where
  | toast (builder : ToastBuilder)
  | info (message : String)
  | success (message : String)
  | warn (message : String)
  | error (message : String)
  | clear
  | remove (toast_id : ToastId)
deriving DecidableEq, Repr

/-- Apply one call to a state. -/
def applyOp (s : ToasterState) : ToasterOp → ToasterState
  | ToasterOp.toast b => s.toast b
  | ToasterOp.info m => s.info m
  | ToasterOp.success m => s.success m
  | ToasterOp.warn m => s.warn m
  | ToasterOp.error m => s.error m
  | ToasterOp.clear => s.clear
  | ToasterOp.remove id => s.remove id

/-- Run a sequence of calls from a starting state. -/
def runOps (s : ToasterState) (ops : List ToasterOp) : ToasterState :=
  ops.foldl applyOp s

/-- States reachable from the default context through the public methods. -/
def Reachable (s : ToasterState) : Prop :=
  ∃ ops : List ToasterOp, runOps ToasterState.default ops = s

/-- The ids handed out by a sequence of successive `toast` calls, in call
order: each call builds its toast with id `total + 1`
(src/toaster/context.rs line 61). -/
def toastIds (s : ToasterState) : List ToastBuilder → List ToastId
  | [] => []
  | b :: bs => (b.build (s.stats.total + 1)).id :: toastIds (s.toast b) bs

/-- The leptos context slot holding the `ToasterContext`, flattened to an
optional value: `provide_context` fills it, `use_context` reads it. -/
def provide_toaster (slot : Option ToasterState) : Option ToasterState :=
  if slot.isNone then some ToasterState.default else slot

/-- Rust `expect_toaster` (src/toaster.rs lines 146-148): fetch the installed
context; `none` models the panic when no context was provided. -/
def expect_toaster (slot : Option ToasterState) : Option ToasterState :=
  slot


/-- Spec-side description of the builder used by the convenience methods,
following the spec's words: a builder obtained from the context's
caller-supplied defaults (or a fresh builder when no defaults exist), with
the message and the preset level applied.  Compared against the
source-derived `ToasterState.conveniences` in claim C6. -/
def convenienceBuilderSpec (defaults : Option ToastBuilder) (message : String)
    (level : ToastLevel) : ToastBuilder :=
  match defaults with
  | some d => (d.with_message message).with_level level
  | none => (ToastBuilder.new message).with_level level

/-- Claim C5: `toast(builder)` appends exactly one new toast, built from the
next id (one more than the total-ever-created count), at the end of the
queue, leaves all pre-existing entries unchanged and in place, and
increments both the `visible` and `total` counters by one. -/
theorem toast_appends_built_toast (s : ToasterState) (b : ToastBuilder) :
    (s.toast b).queue.length = s.queue.length + 1 ∧
    (∀ i, i < s.queue.length → (s.toast b).queue[i]? = s.queue[i]?) ∧
    (s.toast b).queue[s.queue.length]? = some (b.build (s.stats.total + 1)) ∧
    (s.toast b).stats.visible = s.stats.visible + 1 ∧
    (s.toast b).stats.total = s.stats.total + 1 := by
  refine ⟨by simp [ToasterState.toast], fun i hi => ?_, ?_, rfl, rfl⟩
  · simp [ToasterState.toast, List.getElem?_append_left hi]
  · simp [ToasterState.toast]

/-- Witness for C5 at a concrete state holding one toast. -/
theorem toast_appends_built_toast_witness :
    ((ToasterState.default.toast (ToastBuilder.new "a")).toast
        (ToastBuilder.new "b")).queue[0]? =
      (ToasterState.default.toast (ToastBuilder.new "a")).queue[0]? :=
  (toast_appends_built_toast (ToasterState.default.toast (ToastBuilder.new "a"))
    (ToastBuilder.new "b")).2.1 0 (by decide)

/-- Claim C6: each of `info`, `success`, `warn`, `error` is equivalent to
calling `toast` with a builder obtained from the caller-supplied defaults
(or a fresh builder when no defaults exist) with the message and the
corresponding preset level applied. -/
theorem convenience_methods_are_toast_sugar (s : ToasterState) (m : String) :
    s.info m = s.toast (convenienceBuilderSpec s.defaults m ToastLevel.Info) ∧
    s.success m =
      s.toast (convenienceBuilderSpec s.defaults m ToastLevel.Success) ∧
    s.warn m = s.toast (convenienceBuilderSpec s.defaults m ToastLevel.Warn) ∧
    s.error m =
      s.toast (convenienceBuilderSpec s.defaults m ToastLevel.Error) := by
  cases h : s.defaults <;>
    simp [ToasterState.info, ToasterState.success, ToasterState.warn,
      ToasterState.error, ToasterState.conveniences, convenienceBuilderSpec, h]

/-- Claim C4: immediately after `clear()` every toast that was in the queue
has its clear signal set to `true`, the queue length is unchanged, each
entry is otherwise unchanged and in the same position, and the stats (in
particular `visible`) are untouched. -/
theorem clear_marks_all_without_removing (s : ToasterState) :
    s.clear.queue.length = s.queue.length ∧
    (∀ i : Nat, s.clear.queue[i]? =
      (s.queue[i]?).map (fun t => { t with clear_signal := true })) ∧
    s.clear.stats = s.stats ∧
    s.clear.defaults = s.defaults := by
  refine ⟨by simp [ToasterState.clear], fun i => ?_, rfl, rfl⟩
  simp [ToasterState.clear]

/-- Claim C3: `remove` on an id not present in the queue is a no-op: the
whole state (queue and counters included) is unchanged. -/
theorem remove_absent_id_noop (s : ToasterState) (toast_id : ToastId)
    (h : ∀ t ∈ s.queue, t.id ≠ toast_id) :
    s.remove toast_id = s := by
  have hnone : s.queue.findIdx? (fun t => t.id == toast_id) = none :=
    List.findIdx?_eq_none_iff.mpr (fun t ht => by simpa using h t ht)
  simp [ToasterState.remove, hnone]

/-- Witness for C3: removing id 2 from a queue holding only id 1. -/
theorem remove_absent_id_noop_witness :
    (ToasterState.default.toast (ToastBuilder.new "a")).remove 2 =
      ToasterState.default.toast (ToastBuilder.new "a") :=
  remove_absent_id_noop (ToasterState.default.toast (ToastBuilder.new "a")) 2
    (by decide)

/-- Claim C1: for a queue containing the id, `remove` deletes exactly the
first entry whose id matches and leaves every other entry present and in
the same relative order: the queue splits as `pre ++ t :: post` with `t`
the first match, and afterwards it is exactly `pre ++ post`. -/
theorem remove_deletes_first_match (s : ToasterState) (toast_id : ToastId)
    (h : ∃ t ∈ s.queue, t.id = toast_id) :
    ∃ pre t post,
      s.queue = pre ++ t :: post ∧
      t.id = toast_id ∧
      (∀ u ∈ pre, u.id ≠ toast_id) ∧
      (s.remove toast_id).queue = pre ++ post ∧
      (s.remove toast_id).defaults = s.defaults := by
  obtain ⟨t0, ht0, hid0⟩ := h
  have hex : ∃ x, x ∈ s.queue ∧ (fun t => t.id == toast_id) x = true :=
    ⟨t0, ht0, by simp [hid0]⟩
  have hfind :
      s.queue.findIdx? (fun t => t.id == toast_id) =
        some (s.queue.findIdx (fun t => t.id == toast_id)) :=
    List.findIdx?_eq_some_of_exists hex
  obtain ⟨hlt, hp, hbefore⟩ := List.findIdx?_eq_some_iff_getElem.mp hfind
  refine ⟨s.queue.take (s.queue.findIdx (fun t => t.id == toast_id)),
    s.queue.get ⟨_, hlt⟩,
    s.queue.drop (s.queue.findIdx (fun t => t.id == toast_id) + 1),
    ?_, ?_, ?_, ?_, ?_⟩
  · conv_lhs => rw [← List.take_append_drop
      (s.queue.findIdx (fun t => t.id == toast_id)) s.queue]
    rw [List.drop_eq_getElem_cons hlt]
    simp
  · simpa using hp
  · intro u hu
    obtain ⟨j, hj, hju⟩ := List.mem_take_iff_getElem.mp hu
    have hjlt : j < s.queue.findIdx (fun t => t.id == toast_id) := by
      have := Nat.lt_of_lt_of_le hj (Nat.min_le_left _ _)
      exact this
    have hne := hbefore j hjlt
    rw [hju] at hne
    simpa using hne
  · simp [ToasterState.remove, hfind, List.eraseIdx_eq_take_drop_succ]
  · simp [ToasterState.remove, hfind]

/-- Witness for C1: removing id 1 from a queue holding ids 1 and 2. -/
theorem remove_deletes_first_match_witness :
    ∃ pre t post,
      ((ToasterState.default.toast (ToastBuilder.new "a")).toast
          (ToastBuilder.new "b")).queue = pre ++ t :: post ∧
      t.id = 1 ∧
      (∀ u ∈ pre, u.id ≠ 1) ∧
      (((ToasterState.default.toast (ToastBuilder.new "a")).toast
          (ToastBuilder.new "b")).remove 1).queue = pre ++ post ∧
      (((ToasterState.default.toast (ToastBuilder.new "a")).toast
          (ToastBuilder.new "b")).remove 1).defaults =
        ((ToasterState.default.toast (ToastBuilder.new "a")).toast
          (ToastBuilder.new "b")).defaults :=
  remove_deletes_first_match
    ((ToasterState.default.toast (ToastBuilder.new "a")).toast
      (ToastBuilder.new "b")) 1 (by decide)

/-- Helper for C2: every id handed out by a run of `toast` calls strictly
exceeds the `total` counter of the starting state. -/
theorem toastIds_gt_total (bs : List ToastBuilder) :
    ∀ (s : ToasterState), ∀ id ∈ toastIds s bs, s.stats.total < id := by
  induction bs with
  | nil => intro s id hid; simp [toastIds] at hid
  | cons b bs ih =>
    intro s id hid
    simp only [toastIds, List.mem_cons] at hid
    rcases hid with rfl | hid
    · simp [ToastBuilder.build]
    · have h2 := ih (s.toast b) id hid
      simp only [ToasterState.toast] at h2
      omega

/-- Claim C2: across any sequence of successive `toast` calls the assigned
ids are strictly increasing, hence pairwise distinct. -/
theorem toast_ids_strictly_increasing (s : ToasterState)
    (bs : List ToastBuilder) :
    (toastIds s bs).Pairwise (· < ·) ∧ (toastIds s bs).Nodup := by
  have hpw : ∀ (s2 : ToasterState), (toastIds s2 bs).Pairwise (· < ·) := by
    induction bs with
    | nil => intro s2; simp [toastIds]
    | cons b bs ih =>
      intro s2
      simp only [toastIds, List.pairwise_cons]
      refine ⟨fun id hid => ?_, ih _⟩
      have h2 := toastIds_gt_total bs (s2.toast b) id hid
      have h3 : (b.build (s2.stats.total + 1)).id = s2.stats.total + 1 := rfl
      have h4 : (s2.toast b).stats.total = s2.stats.total + 1 := rfl
      rw [h4] at h2
      rw [h3]
      exact h2
  exact ⟨hpw s, (hpw s).imp (fun h => Nat.ne_of_lt h)⟩

/-- Claim C7: `remove` is the sole mutator that shrinks the queue: every
other operation leaves the queue at least as long as before. -/
theorem remove_is_sole_shrinking_op (s : ToasterState) (op : ToasterOp)
    (h : ∀ id : ToastId, op ≠ ToasterOp.remove id) :
    s.queue.length ≤ (applyOp s op).queue.length := by
  cases op with
  | remove id => exact absurd rfl (h id)
  | clear => simp [applyOp, ToasterState.clear]
  | toast b => simp [applyOp, ToasterState.toast]
  | info m => simp [applyOp, ToasterState.info, ToasterState.toast]
  | success m => simp [applyOp, ToasterState.success, ToasterState.toast]
  | warn m => simp [applyOp, ToasterState.warn, ToasterState.toast]
  | error m => simp [applyOp, ToasterState.error, ToasterState.toast]

/-- Witness for C7: `clear` does not shrink a one-element queue. -/
theorem remove_is_sole_shrinking_op_witness :
    (ToasterState.default.toast (ToastBuilder.new "a")).queue.length ≤
      (applyOp (ToasterState.default.toast (ToastBuilder.new "a"))
        ToasterOp.clear).queue.length :=
  remove_is_sole_shrinking_op (ToasterState.default.toast (ToastBuilder.new "a"))
    ToasterOp.clear (fun _ h => ToasterOp.noConfusion h)

/-- Helper for C8/C9: each single operation preserves the equality between
the `visible` counter and the queue length. -/
theorem applyOp_preserves_visible_eq_length (s : ToasterState) (op : ToasterOp)
    (h : s.stats.visible = s.queue.length) :
    (applyOp s op).stats.visible = (applyOp s op).queue.length := by
  cases op with
  | toast b => simp [applyOp, ToasterState.toast, h]
  | info m => simp [applyOp, ToasterState.info, ToasterState.toast, h]
  | success m => simp [applyOp, ToasterState.success, ToasterState.toast, h]
  | warn m => simp [applyOp, ToasterState.warn, ToasterState.toast, h]
  | error m => simp [applyOp, ToasterState.error, ToasterState.toast, h]
  | clear => simp [applyOp, ToasterState.clear, h]
  | remove tid =>
    show (s.remove tid).stats.visible = (s.remove tid).queue.length
    cases hfind : s.queue.findIdx? (fun t => t.id == tid) with
    | none => simp [ToasterState.remove, hfind, h]
    | some i =>
      have hi : i < s.queue.length :=
        (List.findIdx?_eq_some_iff_findIdx_eq.mp hfind).1
      simp [ToasterState.remove, hfind, List.length_eraseIdx_of_lt hi, h]

/-- Helper for C8/C9: runs of operations preserve the `visible` = queue
length equality. -/
theorem runOps_preserves_visible_eq_length (ops : List ToasterOp) :
    ∀ (s : ToasterState), s.stats.visible = s.queue.length →
      (runOps s ops).stats.visible = (runOps s ops).queue.length := by
  induction ops with
  | nil => intro s h; exact h
  | cons op ops ih =>
    intro s h
    exact ih (applyOp s op) (applyOp_preserves_visible_eq_length s op h)

/-- Claim C9: in every state reachable from the default context by the
public operations, the `visible` counter equals the queue length. -/
theorem reachable_visible_eq_queue_length (s : ToasterState)
    (h : Reachable s) : s.stats.visible = s.queue.length := by
  obtain ⟨ops, rfl⟩ := h
  exact runOps_preserves_visible_eq_length ops ToasterState.default rfl

/-- Witness for C9 at the state reached by one `toast` call. -/
theorem reachable_visible_eq_queue_length_witness :
    (runOps ToasterState.default
        [ToasterOp.toast (ToastBuilder.new "a")]).stats.visible =
      (runOps ToasterState.default
        [ToasterOp.toast (ToastBuilder.new "a")]).queue.length :=
  reachable_visible_eq_queue_length
    (runOps ToasterState.default [ToasterOp.toast (ToastBuilder.new "a")])
    ⟨[ToasterOp.toast (ToastBuilder.new "a")], rfl⟩

/-- Claim C8: every operation is a total function in this embedding (each
is a Lean function on states), and from any reachable state the decrement
of `visible` in `remove` never underflows: when a matching toast exists,
`visible` is at least one and the decrement is exact. -/
theorem remove_decrement_never_underflows (s : ToasterState)
    (h : Reachable s) (toast_id : ToastId)
    (hmem : ∃ t ∈ s.queue, t.id = toast_id) :
    1 ≤ s.stats.visible ∧
    (s.remove toast_id).stats.visible + 1 = s.stats.visible := by
  have hv : s.stats.visible = s.queue.length := by
    obtain ⟨ops, rfl⟩ := h
    exact runOps_preserves_visible_eq_length ops ToasterState.default rfl
  obtain ⟨t0, ht0, hid0⟩ := hmem
  have hlen : 0 < s.queue.length :=
    List.length_pos.mpr (List.ne_nil_of_mem ht0)
  have h1 : 1 ≤ s.stats.visible := by omega
  refine ⟨h1, ?_⟩
  have hfind :
      s.queue.findIdx? (fun t => t.id == toast_id) =
        some (s.queue.findIdx (fun t => t.id == toast_id)) :=
    List.findIdx?_eq_some_of_exists ⟨t0, ht0, by simp [hid0]⟩
  have hvis : (s.remove toast_id).stats.visible = s.stats.visible - 1 := by
    simp [ToasterState.remove, hfind]
  omega

/-- Witness for C8 at the reachable state holding one toast with id 1. -/
theorem remove_decrement_never_underflows_witness :
    1 ≤ (ToasterState.default.toast (ToastBuilder.new "a")).stats.visible ∧
    ((ToasterState.default.toast (ToastBuilder.new "a")).remove
        1).stats.visible + 1 =
      (ToasterState.default.toast (ToastBuilder.new "a")).stats.visible :=
  remove_decrement_never_underflows
    (ToasterState.default.toast (ToastBuilder.new "a"))
    ⟨[ToasterOp.toast (ToastBuilder.new "a")], rfl⟩ 1 (by decide)

/-- Claim C10: `provide_toaster` is idempotent: providing twice equals
providing once, and when a context is already installed, a later
`expect_toaster` still returns that first context. -/
theorem provide_toaster_idempotent (slot : Option ToasterState) :
    provide_toaster (provide_toaster slot) = provide_toaster slot ∧
    ∀ c : ToasterState, slot = some c →
      expect_toaster (provide_toaster slot) = some c := by
  cases slot with
  | none => simp [provide_toaster, expect_toaster]
  | some c0 => simp [provide_toaster, expect_toaster]

/-- Witness for C10: a slot already holding the default context. -/
theorem provide_toaster_idempotent_witness :
    expect_toaster (provide_toaster (some ToasterState.default)) =
      some ToasterState.default :=
  (provide_toaster_idempotent (some ToasterState.default)).2
    ToasterState.default rfl
